import Mathlib

/-!
Shallow embedding of `src/flat_to_opc.py`, a converter from "Flat OPC" XML
documents to OPC (ZIP) packages, together with theorems settling the claims
about its specification.

Modelling conventions:
- Raw bytes are `List Nat` (each entry a byte value).
- XML element trees (lxml `_Element`) are the inductive `Xml`: a tag in Clark
  notation, an attribute list, the text before the first child, the child
  elements, and the tail text following the element.
- External capabilities (the filesystem, `etree.fromstring`) are parameters.
- Python exceptions are modelled with `Except String`, the error value being
  the exception text.
- The ZIP writer is modelled by the ordered list of (entry name, entry bytes)
  pairs written into the archive.
-/

/-- Byte sequences, each entry one byte value. -/
abbrev Bytes := List Nat

/-- UTF-8 encoding of a single character, by code point. -/
def utf8EncodeChar (c : Char) : Bytes :=
  let n := c.toNat
  if n < 128 then [n]
  else if n < 2048 then [192 + n / 64, 128 + n % 64]
  else if n < 65536 then [224 + n / 4096, 128 + n / 64 % 64, 128 + n % 64]
  else [240 + n / 262144, 128 + n / 4096 % 64, 128 + n / 64 % 64, 128 + n % 64]

/-- UTF-8 encoding of a string; models Python `str.encode("utf-8")`. -/
def utf8Encode (s : String) : Bytes :=
  (s.data.map utf8EncodeChar).flatten

/-- XML element tree as exposed by lxml: qualified tag (Clark notation),
attribute list, text before the first child, child elements, tail text. -/
inductive Xml where
  | elem (tag : String) (attrib : List (String × String)) (text : Option String)
      (children : List Xml) (tailText : Option String)

/-- Tag accessor. -/
def Xml.tag : Xml → String
  | .elem t _ _ _ _ => t

/-- Attribute-list accessor. -/
def Xml.attrib : Xml → List (String × String)
  | .elem _ a _ _ _ => a

/-- Text accessor (lxml `elem.text`). -/
def Xml.text : Xml → Option String
  | .elem _ _ tx _ _ => tx

/-- Children accessor (lxml `list(elem)`). -/
def Xml.children : Xml → List Xml
  | .elem _ _ _ cs _ => cs

/-- Tail-text accessor (lxml `elem.tail`). -/
def Xml.tailText : Xml → Option String
  | .elem _ _ _ _ tl => tl

/-- Attribute lookup `elem.attrib[key]`; the error value models KeyError. -/
def Xml.attrGet (e : Xml) (key : String) : Except String String :=
  match e.attrib.find? (fun kv => kv.1 == key) with
  | some kv => .ok kv.2
  | none => .error ("KeyError: " ++ key)

/-- Tests that attribute `key` of `e` is present with value exactly `val`. -/
def attrIs (e : Xml) (key val : String) : Bool :=
  match e.attrGet key with
  | .ok v => v == val
  | .error _ => false

/-- Escapes XML text content as the serializer renders it. -/
def escapeText (s : String) : String :=
  s.data.foldr
    (fun c acc =>
      (match c with
       | '&' => "&amp;"
       | '<' => "&lt;"
       | '>' => "&gt;"
       | _ => String.mk [c]) ++ acc) ""

/-- Escapes an XML attribute value as the serializer renders it. -/
def escapeAttr (s : String) : String :=
  s.data.foldr
    (fun c acc =>
      (match c with
       | '&' => "&amp;"
       | '<' => "&lt;"
       | '>' => "&gt;"
       | '"' => "&quot;"
       | _ => String.mk [c]) ++ acc) ""

/-- Renders an attribute list as ` k="v"` items. -/
def serializeAttrs (attrs : List (String × String)) : String :=
  attrs.foldr (fun kv acc => " " ++ kv.1 ++ "=\"" ++ escapeAttr kv.2 ++ "\"" ++ acc) ""

/-- Renders optional text, empty when absent. -/
def textOr (tx : Option String) : String :=
  match tx with
  | some t => escapeText t
  | none => ""

mutual
/-- Renders one element (the top element's tail is not emitted, matching
`with_tail=False`). The element's qualified Clark name is emitted directly,
abstracting lxml's namespace-prefix rendering; no claim depends on the exact
rendered shape of tags. -/
def serializeElem : Xml → String
  | .elem tag attrs tx children _tl =>
    match tx, children with
    | none, [] => "<" ++ tag ++ serializeAttrs attrs ++ "/>"
    | _, _ =>
      "<" ++ tag ++ serializeAttrs attrs ++ ">" ++ textOr tx ++
        serializeChildren children ++ "</" ++ tag ++ ">"

/-- Renders a list of sibling elements, each followed by its tail text. -/
def serializeChildren : List Xml → String
  | [] => ""
  | c :: cs => serializeElem c ++ textOr c.tailText ++ serializeChildren cs
end

/-- Models `etree.tostring(node, xml_declaration=True, encoding="UTF-8",
pretty_print=False, with_tail=False, standalone=True)`: the XML declaration
followed by the compact rendering of the node, UTF-8 encoded, no trailing
tail. -/
def tostring (e : Xml) : Bytes :=
  utf8Encode
    ("<?xml version=\x271.0\x27 encoding=\x27UTF-8\x27 standalone=\x27yes\x27?>\n"
      ++ serializeElem e)

/-- Position of a character in the standard base64 alphabet. -/
def b64Index (c : Char) : Option Nat :=
  if 65 ≤ c.toNat ∧ c.toNat ≤ 90 then some (c.toNat - 65)
  else if 97 ≤ c.toNat ∧ c.toNat ≤ 122 then some (c.toNat - 97 + 26)
  else if 48 ≤ c.toNat ∧ c.toNat ≤ 57 then some (c.toNat - 48 + 52)
  else if c = '+' then some 62
  else if c = '/' then some 63
  else none

/-- Decodes a sequence of 6-bit values into bytes, a final group of two or
three values contributing one or two bytes. -/
def b64Quads : List Nat → Bytes
  | a :: b :: c :: d :: rest =>
    (a * 4 + b / 16) :: (b % 16 * 16 + c / 4) :: (c % 4 * 64 + d) :: b64Quads rest
  | [a, b] => [a * 4 + b / 16]
  | [a, b, c] => [a * 4 + b / 16, b % 16 * 16 + c / 4]
  | _ => []

/-- Models `base64.b64decode` in its default (validate=False) mode: characters
outside the alphabet and the padding character are discarded, data stops at the
first `=`, and an Incorrect padding error is raised when the number of data
characters is 1 mod 4, or 2 or 3 mod 4 with no padding character present. -/
def b64decode (s : String) : Except String Bytes :=
  let kept := s.data.filter (fun c => (b64Index c).isSome || c == '=')
  let dataChars := kept.takeWhile (fun c => !(c == '='))
  let ds := dataChars.filterMap b64Index
  if ds.length % 4 == 0 then .ok (b64Quads ds)
  else if ds.length % 4 == 1 then .error "binascii.Error: Incorrect padding"
  else if dataChars.length < kept.length then .ok (b64Quads ds)
  else .error "binascii.Error: Incorrect padding"

/-- Tests whether `sub` occurs as a leading run of `s`. -/
def startsWithChars : List Char → List Char → Bool
  | _, [] => true
  | [], _ :: _ => false
  | c :: cs, p :: ps => c == p && startsWithChars cs ps

/-- Tests whether `sub` occurs contiguously anywhere in `s`. -/
def containsChars : List Char → List Char → Bool
  | [], sub => startsWithChars [] sub
  | c :: cs, sub => startsWithChars (c :: cs) sub || containsChars cs sub

/-- Models the Python substring test `sub in s`. -/
def strContains (s sub : String) : Bool :=
  containsChars s.data sub.data

/-- Models the Python suffix test `s.endswith(suf)`: a plain suffix match on
the character sequence. -/
def endswith (s suf : String) : Bool :=
  startsWithChars s.data.reverse suf.data.reverse

/-- Models the Python slice `s[1:]`: the first character is dropped
unconditionally, and the slice of the empty string is empty. -/
def sliceFrom1 (s : String) : String :=
  String.mk (s.data.drop 1)

/-- Namespace URI of the Microsoft flat-package schema (`pkg` in the source). -/
def pkgNamespace : String := "http://schemas.microsoft.com/office/2006/xmlPackage"

/-- Namespace URI of the OPC content-types schema (`ContentTypes.CT`). -/
def ctNamespace : String := "http://schemas.openxmlformats.org/package/2006/content-types"

/-- Clark notation for a namespace-qualified name, as the source builds with
`"\x7b\x7b\x7b...\x7d\x7d\x7d".format(...)`. -/
def clark (ns localName : String) : String :=
  "\x7b" ++ ns ++ "\x7d" ++ localName

/-- Qualified name of the `name` attribute of a part element. -/
def pkgNameAttr : String := clark pkgNamespace "name"

/-- Qualified name of the `contentType` attribute of a part element. -/
def pkgContentTypeAttr : String := clark pkgNamespace "contentType"

/-- Qualified tag of a `pkg:part` element. -/
def pkgPartTag : String := clark pkgNamespace "part"

/-- Registry state of class `ContentTypes`: the `_defaults` and `_overrides`
Python dicts, modelled as insertion-ordered association lists whose keys are
distinct. Python dict assignment keeps an existing key at its position and
updates its value; a new key is appended. -/
structure ContentTypes where
  defaults : List (String × String)
  overrides : List (String × String)

/-- Models Python dict assignment `d[k] = v`: update in place when the key is
present, append otherwise. -/
def dictSet : List (String × String) → String → String → List (String × String)
  | [], k, v => [(k, v)]
  | (k0, v0) :: rest, k, v =>
    if k0 = k then (k, v) :: rest else (k0, v0) :: dictSet rest k v

/-- Models Python dict lookup `d.get(k)`. -/
def dictGet : List (String × String) → String → Option String
  | [], _ => none
  | (k0, v0) :: rest, k => if k0 = k then some v0 else dictGet rest k

/-- Models `ContentTypes.add_content` (lines 56-57):
`self._overrides[part_name] = content_type`. -/
def addContent (ct : ContentTypes) (part_name content_type : String) : ContentTypes :=
  { ct with overrides := dictSet ct.overrides part_name content_type }

/-- One `Default` child element as built at lines 34-38 of the source. -/
def defaultElem (extension contentType : String) : Xml :=
  .elem (clark ctNamespace "Default")
    [("Extension", extension), ("ContentType", contentType)] none [] none

/-- One `Override` child element as built at lines 41-45 of the source. -/
def overrideElem (partName contentType : String) : Xml :=
  .elem (clark ctNamespace "Override")
    [("PartName", partName), ("ContentType", contentType)] none [] none

/-- Models the defaults loop of `write_xml_data` (line 33 of the source):
`for key, value in self._defaults:` iterates the dict directly, that is over
its KEYS, and tuple-unpacks each key string. A key of length two binds its two
characters to `key` and `value`; a key of any other length raises ValueError.
(The parallel overrides loop at line 40 uses `.items()` instead.) -/
def defaultsLoop : List (String × String) → Except String (List Xml)
  | [] => .ok []
  | (key, _) :: rest =>
    match key.data with
    | [c1, c2] =>
      (defaultsLoop rest).map (fun elems => defaultElem (String.mk [c1]) (String.mk [c2]) :: elems)
    | _ => .error "ValueError: cannot unpack key of the defaults dict"

/-- Models the element tree built by `write_xml_data` before serialization:
the root `<Types xmlns="...">` parsed at lines 29-31, with the `Default`
children produced by the defaults loop followed by one `Override` child per
overrides entry. -/
def typesTree (ct : ContentTypes) : Except String Xml :=
  (defaultsLoop ct.defaults).map (fun defs =>
    .elem (clark ctNamespace "Types") [] none
      (defs ++ ct.overrides.map (fun kv => overrideElem kv.1 kv.2)) none)

/-- Models `ContentTypes.write_xml_data` (lines 28-54): build the Types tree
and serialize it with declaration, UTF-8, no pretty printing, no tail,
standalone. -/
def write_xml_data (ct : ContentTypes) : Except String Bytes :=
  (typesTree ct).map tostring

/-- Package part record yielded by the parser (line 60 of the source). -/
structure PackagePart where
  uri : String
  content_type : String
  data : Bytes
deriving DecidableEq, Repr

/-- Models lines 102-104: `filter(lambda char: char not in ["\n", "\r"], chunks)`
joined back into a string. -/
def stripNewlines (s : String) : String :=
  String.mk (s.data.filter (fun c => !(c == '\n' || c == '\r')))

/-- Models the list indexing `list(...)[0]`; the error value is IndexError. -/
def listIndex0 (l : List Xml) : Except String Xml :=
  match l with
  | [] => .error "IndexError: list index out of range"
  | x :: _ => .ok x

/-- Models the loop body of `find_packages` for one `pkg:part` element
(lines 90-105): read the qualified `name` and `contentType` attributes; when
the content type ends with "xml", serialize the first child's first child;
otherwise strip line breaks from the first child's text and base64-decode it.
A text of None raises when Python iterates it (TypeError). -/
def processPart (part : Xml) : Except String PackagePart :=
  match part.attrGet pkgNameAttr with
  | .error e => .error e
  | .ok uri =>
    match part.attrGet pkgContentTypeAttr with
    | .error e => .error e
    | .ok content_type =>
      if endswith content_type "xml" then
        match listIndex0 part.children with
        | .error e => .error e
        | .ok child =>
          match listIndex0 child.children with
          | .error e => .error e
          | .ok payload => .ok ⟨uri, content_type, tostring payload⟩
      else
        match listIndex0 part.children with
        | .error e => .error e
        | .ok child =>
          match child.text with
          | none => .error "TypeError: NoneType object is not iterable"
          | some chunks =>
            (b64decode (stripNewlines chunks)).map (fun data => ⟨uri, content_type, data⟩)

mutual
/-- Models `tree.xpath("//pkg:part", namespaces=ns)` (line 89): every element
whose qualified tag is `pkg:part`, anywhere in the document (the context
element itself included), in document order. -/
def xpathParts : Xml → List Xml
  | .elem tag a tx cs tl =>
    (if tag = pkgPartTag then [Xml.elem tag a tx cs tl] else []) ++ xpathPartsList cs

/-- Collects the `pkg:part` elements of a sibling list, in document order. -/
def xpathPartsList : List Xml → List Xml
  | [] => []
  | c :: cs => xpathParts c ++ xpathPartsList cs
end

/-- Processes a list of part elements in order, stopping at the first raised
exception. -/
def processParts : List Xml → Except String (List PackagePart)
  | [] => .ok []
  | p :: ps =>
    match processPart p with
    | .error e => .error e
    | .ok part => (processParts ps).map (fun rest => part :: rest)

/-- Models the iteration of `find_packages` over an already parsed tree:
process every `pkg:part` element in document order. The lazy generator is
modelled by the list of yielded parts; an exception raised while producing any
part aborts the whole iteration. -/
def findPackagesFromTree (tree : Xml) : Except String (List PackagePart) :=
  processParts (xpathParts tree)

/-- Models lines 74-78 of `find_packages`. The filesystem is a parameter
mapping a path to the raw bytes of the file there, `none` when
`os.path.exists` is false: an existing file is read as raw bytes, otherwise
the input string itself is UTF-8 encoded. -/
def resolveInput (fs : String → Option Bytes) (flat_path : String) : Bytes :=
  match fs flat_path with
  | some content => content
  | none => utf8Encode flat_path

/-- Models lines 80-87 of `find_packages`: parse with the default
configuration; when that raises an XMLSyntaxError whose text contains
"huge text node", parse once more with `etree.XMLParser(huge_tree=True)`;
re-raise any other XMLSyntaxError unchanged. The `parse` parameter is the
external `etree.fromstring` capability: its Bool argument is the parser's
`huge_tree` flag and its error value is `str(e)`. -/
def parseFlat (parse : Bool → Except String Xml) : Except String Xml :=
  match parse false with
  | .ok tree => .ok tree
  | .error e => if strContains e "huge text node" then parse true else .error e

/-- Models `find_packages` (lines 63-105) over the external filesystem and
XML-parse capabilities, returning the list of yielded `PackagePart` records. -/
def find_packages (fs : String → Option Bytes) (parse : Bytes → Bool → Except String Xml)
    (flat_path : String) : Except String (List PackagePart) :=
  let content := resolveInput fs flat_path
  match parseFlat (parse content) with
  | .error e => .error e
  | .ok tree => findPackagesFromTree tree

/-- Models the per-part loop shared by `flat_to_opc` (lines 119-121) and
`flat_to_opc_bytes` (lines 138-140): for each yielded part, register its
content type, then write a ZIP entry named `file.uri[1:]` (Python slicing
drops the first character unconditionally; the slice of an empty string is
empty) holding the part's bytes. The ZIP writer is modelled by the ordered
list of written (entry name, entry bytes) pairs. -/
def assembleLoop :
    List PackagePart → ContentTypes → List (String × Bytes) →
      ContentTypes × List (String × Bytes)
  | [], ct, entries => (ct, entries)
  | file :: rest, ct, entries =>
    assembleLoop rest (addContent ct file.uri file.content_type)
      (entries ++ [(sliceFrom1 file.uri, file.data)])

/-- Models `flat_to_opc` (lines 108-122): convert the flat document named by
`src_path` and write the ZIP archive to the file `dest_path`. The `dest_path`
argument names the output file only; the sequence of entries written to it is
the returned list, the manifest entry last. -/
def flat_to_opc (fs : String → Option Bytes) (parse : Bytes → Bool → Except String Xml)
    (src_path dest_path : String) : Except String (List (String × Bytes)) :=
  let _ := dest_path
  match find_packages fs parse src_path with
  | .error e => .error e
  | .ok parts =>
    let (content_types, entries) := assembleLoop parts ⟨[], []⟩ []
    match write_xml_data content_types with
    | .error e => .error e
    | .ok manifest => .ok (entries ++ [("[Content_Types].xml", manifest)])

/-- Models `flat_to_opc_bytes` (lines 125-143): convert the flat document
named by `src_path` into an in-memory ZIP buffer. The sequence of entries
contained in the returned buffer is the returned list, the manifest last. -/
def flat_to_opc_bytes (fs : String → Option Bytes) (parse : Bytes → Bool → Except String Xml)
    (src_path : String) : Except String (List (String × Bytes)) :=
  match find_packages fs parse src_path with
  | .error e => .error e
  | .ok parts =>
    let (content_types, entries) := assembleLoop parts ⟨[], []⟩ []
    match write_xml_data content_types with
    | .error e => .error e
    | .ok manifest => .ok (entries ++ [("[Content_Types].xml", manifest)])

/-!
Helper definitions and lemmas shared by the claim theorems.
-/

/-- Spec-side notion from the claim wording "last-registered wins": the content
type of the last part of `parts` whose uri is `u`, if any. -/
def lastRegistered (parts : List PackagePart) (u : String) : Option String :=
  (parts.reverse.find? (fun p => p.uri == u)).map PackagePart.content_type

/-- Sample parsed flat document used by witnesses: one binary part. -/
def wBinaryPart : Xml :=
  .elem pkgPartTag [(pkgNameAttr, "/word/media/image1.png"), (pkgContentTypeAttr, "image/png")]
    none [.elem (clark pkgNamespace "binaryData") [] (some "iVBOR\nw0KGgo=") [] none] none

/-- Sample embedded XML payload used by witnesses. -/
def wPayload : Xml := .elem "w:document" [] none [] none

/-- Sample XML part used by witnesses. -/
def wXmlPart : Xml :=
  .elem pkgPartTag
    [(pkgNameAttr, "/word/document.xml"),
     (pkgContentTypeAttr, "application/vnd.openxmlformats-officedocument.wordprocessingml.document.main+xml")]
    none [.elem (clark pkgNamespace "xmlData") [] none [wPayload] none] none

/-- Sample flat document tree used by witnesses. -/
def wDoc : Xml :=
  .elem (clark pkgNamespace "package") [] none [wXmlPart, wBinaryPart] none

/-- Parse capability that raises a huge-text-node error under the default
configuration and succeeds with `huge_tree=True`. -/
def wHugeParse : Bool → Except String Xml :=
  fun b => if b then .ok wDoc else .error "xmlSAX2Characters: huge text node, line 1, column 10"

/-- Parse capability that always raises an unrelated syntax error. -/
def wBadParse : Bool → Except String Xml :=
  fun _ => .error "Start tag expected, line 1, column 1"

/-- Sample binary part whose base64 text contains a tab and a space. -/
def wTabPart : Xml :=
  .elem pkgPartTag [(pkgNameAttr, "/s.bin"), (pkgContentTypeAttr, "image/png")]
    none [.elem (clark pkgNamespace "binaryData") [] (some "QQ\t =\n=") [] none] none

/-- Payload grandchild element of the C1 counterexample part: its own text
differs from the wrapper's text. -/
def c1Grandchild : Xml :=
  .elem (clark pkgNamespace "inner") [] (some "Qg==") [] none

/-- First child (wrapper) of the C1 counterexample part, holding base64 text
that decodes differently from its child's text. -/
def c1Child : Xml :=
  .elem (clark pkgNamespace "binaryData") [] (some "QQ==") [c1Grandchild] none

/-- C1 counterexample part: a non-XML part whose first child's text and that
child's own single child's text are different base64 blobs. -/
def c1Part : Xml :=
  .elem pkgPartTag [(pkgNameAttr, "/word/media/blob.bin"), (pkgContentTypeAttr, "image/png")]
    none [c1Child] none

/-- Restatement of the XML serialization branch of the part loop
(lines 92-100): serialize the first child's first child. -/
def xmlBranch (part : Xml) (uri ct : String) : Except String PackagePart :=
  match listIndex0 part.children with
  | .error e => .error e
  | .ok child =>
    match listIndex0 child.children with
    | .error e => .error e
    | .ok payload => .ok ⟨uri, ct, tostring payload⟩

/-- Restatement of the base64 branch of the part loop (lines 101-104):
strip line breaks from the first child's text and base64-decode. -/
def binaryBranch (part : Xml) (uri ct : String) : Except String PackagePart :=
  match listIndex0 part.children with
  | .error e => .error e
  | .ok child =>
    match child.text with
    | none => .error "TypeError: NoneType object is not iterable"
    | some chunks =>
      (b64decode (stripNewlines chunks)).map (fun data => ⟨uri, ct, data⟩)

/-- Sample part with content type "application/foo+xml" for C7. -/
def c7FooXmlPart : Xml :=
  .elem pkgPartTag [(pkgNameAttr, "/p1.xml"), (pkgContentTypeAttr, "application/foo+xml")]
    none [.elem (clark pkgNamespace "xmlData") [] none [.elem "d1" [] none [] none] none] none

/-- Sample part with content type "application/xmlish" for C7. -/
def c7XmlishPart : Xml :=
  .elem pkgPartTag [(pkgNameAttr, "/p2"), (pkgContentTypeAttr, "application/xmlish")]
    none [.elem (clark pkgNamespace "xmlData") [] none [.elem "d2" [] none [] none] none] none

/-- Sample part with content type "image/png" for C7. -/
def c7PngPart : Xml :=
  .elem pkgPartTag [(pkgNameAttr, "/p3.png"), (pkgContentTypeAttr, "image/png")]
    none [.elem (clark pkgNamespace "binaryData") [] (some "QUJD") [] none] none

/-- Filesystem capability used by the C3 witness: no file exists. -/
def wFs : String → Option Bytes := fun _ => none

/-- Parse capability used by the C3 witness: returns the sample document. -/
def wParse : Bytes → Bool → Except String Xml := fun _ _ => .ok wDoc

/-- The parts yielded from the sample document: one XML part, one binary
part. -/
def wParts : List PackagePart :=
  [⟨"/word/document.xml",
    "application/vnd.openxmlformats-officedocument.wordprocessingml.document.main+xml",
    tostring wPayload⟩,
   ⟨"/word/media/image1.png", "image/png", [137, 80, 78, 71, 13, 10, 26, 10]⟩]

/-- Parts list with a duplicated uri used by the C5 witness. -/
def dupParts : List PackagePart :=
  [⟨"/word/document.xml", "application/xml", [1]⟩,
   ⟨"/word/document.xml", "application/vnd.test+xml", [2]⟩,
   ⟨"/other.bin", "image/png", [3]⟩]

/-!
Theorems: helper lemmas first, then the claim theorems, their witnesses and
counterexamples.
-/

theorem assembleLoop_entries (parts : List PackagePart) :
    ∀ ct entries, (assembleLoop parts ct entries).2 =
      entries ++ parts.map (fun p => (sliceFrom1 p.uri, p.data)) := by
  induction parts with
  | nil => intro ct entries; simp [assembleLoop]
  | cons p ps ih => intro ct entries; simp [assembleLoop, ih]

theorem assembleLoop_registry (parts : List PackagePart) :
    ∀ ct entries, (assembleLoop parts ct entries).1 =
      ⟨ct.defaults, parts.foldl (fun o p => dictSet o p.uri p.content_type) ct.overrides⟩ := by
  induction parts with
  | nil => intro ct entries; simp [assembleLoop]
  | cons p ps ih => intro ct entries; simp [assembleLoop, ih, addContent]

theorem dictGet_dictSet (k v : String) :
    ∀ (l : List (String × String)) (q : String),
      dictGet (dictSet l k v) q = if k = q then some v else dictGet l q := by
  intro l
  induction l with
  | nil =>
    intro q
    by_cases h : k = q <;> simp [dictSet, dictGet, h]
  | cons kv rest ih =>
    intro q
    obtain ⟨k0, v0⟩ := kv
    by_cases h0 : k0 = k
    · subst h0
      by_cases h : k0 = q <;> simp [dictSet, dictGet, h]
    · by_cases h1 : k0 = q
      · subst h1
        have h2 : ¬ k0 = k := h0
        have h3 : ¬ k = k0 := fun hh => h0 hh.symm
        simp [dictSet, dictGet, h0, h2, h3, ih]
      · by_cases h2 : k = q
        · subst h2
          simp [dictSet, dictGet, h0, h1, ih]
        · simp [dictSet, dictGet, h0, h1, h2, ih]

theorem keys_dictSet (k v : String) :
    ∀ l : List (String × String),
      (dictSet l k v).map Prod.fst =
        if k ∈ l.map Prod.fst then l.map Prod.fst else l.map Prod.fst ++ [k] := by
  intro l
  induction l with
  | nil => simp [dictSet]
  | cons kv rest ih =>
    obtain ⟨k0, v0⟩ := kv
    by_cases h0 : k0 = k
    · subst h0
      simp [dictSet]
    · have h0s : ¬ k = k0 := fun hh => h0 hh.symm
      by_cases hm : k ∈ rest.map Prod.fst <;>
        simp [dictSet, h0, h0s, hm, ih]

theorem nodup_keys_dictSet (k v : String) (l : List (String × String))
    (h : (l.map Prod.fst).Nodup) : ((dictSet l k v).map Prod.fst).Nodup := by
  rw [keys_dictSet]
  by_cases hm : k ∈ l.map Prod.fst
  · simpa [hm] using h
  · simp [hm, List.nodup_append, h]

theorem dictGet_mem_keys :
    ∀ (l : List (String × String)) (k v : String),
      dictGet l k = some v → k ∈ l.map Prod.fst := by
  intro l
  induction l with
  | nil => intro k v h; simp [dictGet] at h
  | cons kv rest ih =>
    intro k v h
    obtain ⟨k0, v0⟩ := kv
    by_cases h0 : k0 = k
    · subst h0; simp
    · simp only [dictGet, if_neg h0] at h
      simpa using Or.inr (ih k v h)

theorem dictGet_of_mem_nodup :
    ∀ (l : List (String × String)), (l.map Prod.fst).Nodup →
      ∀ (k v : String), (k, v) ∈ l → dictGet l k = some v := by
  intro l
  induction l with
  | nil => intro _ k v h; simp at h
  | cons kv rest ih =>
    intro hnd k v h
    obtain ⟨k0, v0⟩ := kv
    simp only [List.map_cons, List.nodup_cons] at hnd
    rcases List.mem_cons.mp h with h1 | h1
    · simp only [Prod.mk.injEq] at h1
      obtain ⟨rfl, rfl⟩ := h1
      simp [dictGet]
    · have hk : ¬ k0 = k := by
        intro hh
        subst hh
        exact hnd.1 (by simpa using ⟨v, h1⟩)
      simp only [dictGet, if_neg hk]
      exact ih hnd.2 k v h1

theorem foldl_dictSet_get (parts : List PackagePart) :
    ∀ (o : List (String × String)) (u : String),
      dictGet (parts.foldl (fun o p => dictSet o p.uri p.content_type) o) u =
        (lastRegistered parts u).or (dictGet o u) := by
  induction parts with
  | nil => intro o u; simp [lastRegistered]
  | cons p ps ih =>
    intro o u
    rw [List.foldl_cons, ih]
    cases hfind : ps.reverse.find? (fun q => q.uri == u) with
    | some q =>
      simp [lastRegistered, List.find?_append, hfind]
    | none =>
      by_cases hup : p.uri = u <;>
        simp [lastRegistered, List.find?_append, hfind, dictGet_dictSet, hup]

theorem foldl_dictSet_keys_nodup (parts : List PackagePart) :
    ∀ o : List (String × String), (o.map Prod.fst).Nodup →
      ((parts.foldl (fun o p => dictSet o p.uri p.content_type) o).map Prod.fst).Nodup := by
  induction parts with
  | nil => intro o h; exact h
  | cons p ps ih => intro o h; exact ih _ (nodup_keys_dictSet _ _ _ h)

theorem lastRegistered_of_mem (parts : List PackagePart) (u : String)
    (hu : u ∈ parts.map PackagePart.uri) : ∃ c, lastRegistered parts u = some c := by
  unfold lastRegistered
  obtain ⟨p, hp, hpu⟩ : ∃ p ∈ parts, p.uri = u := by simpa using hu
  have hs : (parts.reverse.find? (fun q => q.uri == u)).isSome := by
    rw [List.find?_isSome]
    exact ⟨p, by simpa using hp, by simp [hpu]⟩
  obtain ⟨q, hq⟩ := Option.isSome_iff_exists.mp hs
  exact ⟨q.content_type, by rw [hq]; rfl⟩

/-!
Claim theorems.
-/

/-- C4: if the initial parse of the flat document fails specifically with a
"huge text node" condition, the parse is retried exactly once with the
`huge_tree=True` configuration (the retry's outcome, whatever it is, is the
result); a successful first parse is returned as is; any parse failure not
matching the condition is propagated to the caller unchanged, with no retry. -/
theorem parse_retry_on_huge_text_node (parse : Bool → Except String Xml) :
    (∀ t, parse false = .ok t → parseFlat parse = .ok t) ∧
    (∀ e, parse false = .error e → strContains e "huge text node" = true →
      parseFlat parse = parse true) ∧
    (∀ e, parse false = .error e → strContains e "huge text node" = false →
      parseFlat parse = .error e) := by
  refine ⟨?_, ?_, ?_⟩
  · intro t ht; simp [parseFlat, ht]
  · intro e he hc; simp [parseFlat, he, hc]
  · intro e he hc; simp [parseFlat, he, hc]

/-- Witness for C4 at the two concrete parse capabilities. -/
theorem parse_retry_on_huge_text_node_witness :
    parseFlat wHugeParse = wHugeParse true ∧
    parseFlat wBadParse = .error "Start tag expected, line 1, column 1" :=
  ⟨(parse_retry_on_huge_text_node wHugeParse).2.1
      "xmlSAX2Characters: huge text node, line 1, column 10" rfl (by decide),
   (parse_retry_on_huge_text_node wBadParse).2.2
      "Start tag expected, line 1, column 1" rfl (by decide)⟩

/-- C6: for every input string, the parser reads the raw bytes of the file at
that path when one exists there, and otherwise treats the string itself as the
literal XML document, encoding it to bytes as UTF-8 (the third conjunct anchors
`utf8Encode` as genuine UTF-8 on a multi-byte example). -/
theorem input_resolution (fs : String → Option Bytes) (p : String) :
    (∀ b, fs p = some b → resolveInput fs p = b) ∧
    (fs p = none → resolveInput fs p = utf8Encode p) ∧
    utf8Encode "aé€" = [97, 195, 169, 226, 130, 172] := by
  refine ⟨?_, ?_, by decide⟩
  · intro b hb; simp [resolveInput, hb]
  · intro hb; simp [resolveInput, hb]

/-- Witness for C6: an existing file is read as raw bytes; a missing one makes
the input string itself the UTF-8 encoded document. -/
theorem input_resolution_witness :
    resolveInput (fun _ => some [1, 2, 3]) "flat.xml" = [1, 2, 3] ∧
    resolveInput (fun _ => none) "<pkg:package/>" = utf8Encode "<pkg:package/>" :=
  ⟨(input_resolution (fun _ => some [1, 2, 3]) "flat.xml").1 [1, 2, 3] rfl,
   (input_resolution (fun _ => none) "<pkg:package/>").2.1 rfl⟩

/-- C8: before base64 decoding, exactly the characters newline and carriage
return are removed and no others; a payload containing a tab or a space passes
those characters through to the base64 decoder unchanged (the last conjunct
shows the decoder input for a concrete part still holding the tab and the
space). -/
theorem strip_only_line_breaks :
    (∀ s : String, stripNewlines s =
      String.mk (s.data.filter (fun c => decide (c ≠ '\n' ∧ c ≠ '\r')))) ∧
    stripNewlines "Q\tQ =\r\n=" = "Q\tQ ==" ∧
    processPart wTabPart =
      (b64decode "QQ\t ==").map (fun data => ⟨"/s.bin", "image/png", data⟩) := by
  refine ⟨?_, by decide, by rfl⟩
  intro s
  unfold stripNewlines
  congr 1
  apply List.filter_congr
  intro c _
  by_cases h1 : c = '\n' <;> by_cases h2 : c = '\r' <;> simp [h1, h2]

/-- C9: the two entry points perform identical conversion logic and differ
only in the output sink: for every source (and destination name), the sequence
of (entry name, entry bytes) pairs written by `flat_to_opc` to the destination
file is the sequence contained in the buffer returned by
`flat_to_opc_bytes`. -/
theorem entry_points_identical (fs : String → Option Bytes)
    (parse : Bytes → Bool → Except String Xml) (src_path dest_path : String) :
    flat_to_opc fs parse src_path dest_path = flat_to_opc_bytes fs parse src_path := rfl

/-- C10: the assembler computes every ZIP entry name by removing the first
character of the part's uri unconditionally, without checking that it is a
slash: a uri that does not begin with a slash has its first character silently
dropped, and an empty uri yields an empty entry name rather than an error. -/
theorem entry_name_drops_first_char :
    (∀ (parts : List PackagePart) (ct : ContentTypes) (entries : List (String × Bytes)),
      (assembleLoop parts ct entries).2.map Prod.fst =
        entries.map Prod.fst ++ parts.map (fun p => sliceFrom1 p.uri)) ∧
    (assembleLoop [⟨"abc", "image/png", [1]⟩] ⟨[], []⟩ []).2 = [("bc", [1])] ∧
    (assembleLoop [⟨"", "image/png", []⟩] ⟨[], []⟩ []).2 = [("", [])] ∧
    sliceFrom1 "abc" = "bc" ∧ sliceFrom1 "" = "" := by
  refine ⟨?_, by decide, by decide, by decide, by decide⟩
  intro parts ct entries
  rw [assembleLoop_entries]
  simp

/-- C1 counterexample: the claim says the base64 payload is the text content
of the part's single child's own single child; on `c1Part` that grandchild
text is "Qg==" (decoding to byte 66), yet the code yields byte 65, the decode
of the first child's own text "QQ==". -/
theorem binary_payload_grandchild_cex :
    processPart c1Part = .ok ⟨"/word/media/blob.bin", "image/png", [65]⟩ ∧
    c1Child.text = some "QQ==" ∧
    (listIndex0 c1Child.children).map Xml.text = .ok (some "Qg==") ∧
    b64decode (stripNewlines "QQ==") = .ok [65] ∧
    b64decode (stripNewlines "Qg==") = .ok [66] ∧
    ([65] : Bytes) ≠ [66] :=
  ⟨rfl, rfl, rfl, rfl, rfl, by decide⟩

/-- C1 (amended): for every part element whose contentType attribute does not
end with "xml", the parser obtains the base64 payload as the text content of
the part element's own first child (the wrapper element itself, not that
child's single child), strips line-break characters, base64-decodes it, and
yields the resulting bytes as the part's data. -/
theorem binary_payload_from_first_child_text (part child : Xml) (uri ct chunks : String)
    (hname : part.attrGet pkgNameAttr = .ok uri)
    (hct : part.attrGet pkgContentTypeAttr = .ok ct)
    (hxml : endswith ct "xml" = false)
    (hchild : listIndex0 part.children = .ok child)
    (htext : child.text = some chunks) :
    processPart part =
      (b64decode (stripNewlines chunks)).map (fun data => ⟨uri, ct, data⟩) := by
  simp [processPart, hname, hct, hxml, hchild, htext]

/-- Witness for the amended C1 at the concrete part `c1Part`. -/
theorem binary_payload_from_first_child_text_witness :
    processPart c1Part =
      (b64decode (stripNewlines "QQ==")).map
        (fun data => ⟨"/word/media/blob.bin", "image/png", data⟩) :=
  binary_payload_from_first_child_text c1Part c1Child "/word/media/blob.bin" "image/png" "QQ=="
    rfl rfl rfl rfl rfl

/-- C2: the claim says a non-empty defaults map serializes to one `Default`
element per entry with `Extension` the key and `ContentType` the value; the
code instead iterates the dict itself (its keys) and tuple-unpacks each key
string, so the registry with defaults `\x7b"png": "image/png"\x7d` raises
ValueError, and a two-character key "ab" emits `Extension="a"
ContentType="b"` rather than `Extension="ab"`. -/
theorem defaults_loop_unpacks_keys_bug :
    write_xml_data ⟨[("png", "image/png")], []⟩ =
      .error "ValueError: cannot unpack key of the defaults dict" ∧
    write_xml_data ⟨[("ab", "text/x")], []⟩ =
      .ok (tostring (.elem (clark ctNamespace "Types") [] none [defaultElem "a" "b"] none)) ∧
    attrIs (defaultElem "a" "b") "Extension" "a" = true ∧
    attrIs (defaultElem "a" "b") "Extension" "ab" = false ∧
    attrIs (defaultElem "a" "b") "ContentType" "text/x" = false :=
  ⟨rfl, rfl, by decide, by decide, by decide⟩

/-- C7 counterexample: the claim says "application/xmlish" takes the XML
serialization branch; but the string "application/xmlish" does not end with
"xml" (it ends with "ish"), so on a part carrying that content type the code
takes the base64 branch: here the wrapper child has no text, so the part
raises TypeError instead of yielding the serialized payload the XML branch
would produce. -/
theorem xmlish_takes_base64_branch_cex :
    endswith "application/xmlish" "xml" = false ∧
    processPart c7XmlishPart = .error "TypeError: NoneType object is not iterable" ∧
    xmlBranch c7XmlishPart "/p2" "application/xmlish" =
      .ok ⟨"/p2", "application/xmlish", tostring (.elem "d2" [] none [] none)⟩ ∧
    processPart c7XmlishPart ≠ xmlBranch c7XmlishPart "/p2" "application/xmlish" := by
  refine ⟨by decide, rfl, rfl, ?_⟩
  intro h
  rw [show processPart c7XmlishPart = .error "TypeError: NoneType object is not iterable" from rfl]
    at h
  rw [show xmlBranch c7XmlishPart "/p2" "application/xmlish" =
      .ok ⟨"/p2", "application/xmlish", tostring (.elem "d2" [] none [] none)⟩ from rfl] at h
  exact Except.noConfusion h

/-- C7 (amended): a part is treated as an XML part exactly when its
contentType string ends with the literal suffix "xml" (a plain suffix match on
the string, not MIME-type token parsing): "application/foo+xml" qualifies and
takes the XML serialization branch, but "application/xmlish" does NOT end with
"xml" and, like every other non-matching content type such as "image/png",
takes the base64 branch. -/
theorem xml_branch_is_plain_suffix_match (part : Xml) (uri ct : String)
    (hname : part.attrGet pkgNameAttr = .ok uri)
    (hct : part.attrGet pkgContentTypeAttr = .ok ct) :
    (endswith ct "xml" = true → processPart part = xmlBranch part uri ct) ∧
    (endswith ct "xml" = false → processPart part = binaryBranch part uri ct) ∧
    endswith "application/foo+xml" "xml" = true ∧
    endswith "application/xmlish" "xml" = false ∧
    endswith "image/png" "xml" = false := by
  refine ⟨?_, ?_, by decide, by decide, by decide⟩
  · intro h; simp [processPart, xmlBranch, hname, hct, h]
  · intro h; simp [processPart, binaryBranch, hname, hct, h]

/-- Witness for the amended C7 at three concrete parts: the "+xml" content
type takes the XML branch; "application/xmlish" and "image/png" take the
base64 branch. -/
theorem xml_branch_is_plain_suffix_match_witness :
    processPart c7FooXmlPart = xmlBranch c7FooXmlPart "/p1.xml" "application/foo+xml" ∧
    processPart c7XmlishPart = binaryBranch c7XmlishPart "/p2" "application/xmlish" ∧
    processPart c7PngPart = binaryBranch c7PngPart "/p3.png" "image/png" :=
  ⟨(xml_branch_is_plain_suffix_match c7FooXmlPart "/p1.xml" "application/foo+xml" rfl rfl).1
      (by decide),
   (xml_branch_is_plain_suffix_match c7XmlishPart "/p2" "application/xmlish" rfl rfl).2.1
      (by decide),
   (xml_branch_is_plain_suffix_match c7PngPart "/p3.png" "image/png" rfl rfl).2.1
      (by decide)⟩

theorem typesTree_defaults_nil (ct : ContentTypes) (h : ct.defaults = []) :
    typesTree ct = .ok (.elem (clark ctNamespace "Types") [] none
      (ct.overrides.map (fun kv => overrideElem kv.1 kv.2)) none) := by
  unfold typesTree
  rw [h]
  simp [defaultsLoop, Except.map]

theorem write_xml_data_defaults_nil (ct : ContentTypes) (h : ct.defaults = []) :
    write_xml_data ct = .ok (tostring (.elem (clark ctNamespace "Types") [] none
      (ct.overrides.map (fun kv => overrideElem kv.1 kv.2)) none)) := by
  unfold write_xml_data
  rw [typesTree_defaults_nil ct h]
  rfl

theorem flat_to_opc_bytes_ok (fs : String → Option Bytes)
    (parse : Bytes → Bool → Except String Xml) (src : String)
    (parts : List PackagePart) (manifest : Bytes)
    (h : find_packages fs parse src = .ok parts)
    (hm : write_xml_data (assembleLoop parts ⟨[], []⟩ []).1 = .ok manifest) :
    flat_to_opc_bytes fs parse src =
      .ok ((assembleLoop parts ⟨[], []⟩ []).2 ++ [("[Content_Types].xml", manifest)]) := by
  unfold flat_to_opc_bytes
  rw [h]
  show (match write_xml_data (assembleLoop parts ⟨[], []⟩ []).1 with
    | Except.error e => Except.error e
    | Except.ok manifest =>
      Except.ok ((assembleLoop parts ⟨[], []⟩ []).2 ++ [("[Content_Types].xml", manifest)])) =
    Except.ok ((assembleLoop parts ⟨[], []⟩ []).2 ++ [("[Content_Types].xml", manifest)])
  rw [hm]

/-- C3: for every flat document yielding parts successfully, the archive
written by `flat_to_opc` (equally, returned by `flat_to_opc_bytes`) contains
exactly N+1 entries for N parts: one entry per part named by the part's uri
with its first character (the leading slash) removed, in the order the parts
were yielded, followed by exactly one final entry named
`[Content_Types].xml`. -/
theorem archive_shape (fs : String → Option Bytes)
    (parse : Bytes → Bool → Except String Xml) (src dest : String)
    (parts : List PackagePart)
    (h : find_packages fs parse src = .ok parts) :
    ∃ manifest : Bytes,
      flat_to_opc fs parse src dest =
        .ok (parts.map (fun p => (sliceFrom1 p.uri, p.data)) ++
          [("[Content_Types].xml", manifest)]) ∧
      flat_to_opc_bytes fs parse src =
        .ok (parts.map (fun p => (sliceFrom1 p.uri, p.data)) ++
          [("[Content_Types].xml", manifest)]) ∧
      (parts.map (fun p => (sliceFrom1 p.uri, p.data)) ++
        [("[Content_Types].xml", manifest)]).length = parts.length + 1 := by
  have hd : (assembleLoop parts ⟨[], []⟩ []).1.defaults = [] := by
    rw [assembleLoop_registry]
  have hm := write_xml_data_defaults_nil _ hd
  have hbytes := flat_to_opc_bytes_ok fs parse src parts _ h hm
  have hent : (assembleLoop parts ⟨[], []⟩ []).2 =
      parts.map (fun p => (sliceFrom1 p.uri, p.data)) := by
    rw [assembleLoop_entries]
    simp
  rw [hent] at hbytes
  refine ⟨_, ?_, hbytes, ?_⟩
  · rw [show flat_to_opc fs parse src dest = flat_to_opc_bytes fs parse src from rfl]
    exact hbytes
  · simp

/-- Witness for C3 at the concrete sample document (two parts, one of each
kind). -/
theorem archive_shape_witness :
    find_packages wFs wParse "flat.xml" = .ok wParts ∧
    (∃ manifest : Bytes,
      flat_to_opc wFs wParse "flat.xml" "out.docx" =
        .ok (wParts.map (fun p => (sliceFrom1 p.uri, p.data)) ++
          [("[Content_Types].xml", manifest)]) ∧
      flat_to_opc_bytes wFs wParse "flat.xml" =
        .ok (wParts.map (fun p => (sliceFrom1 p.uri, p.data)) ++
          [("[Content_Types].xml", manifest)]) ∧
      (wParts.map (fun p => (sliceFrom1 p.uri, p.data)) ++
        [("[Content_Types].xml", manifest)]).length = wParts.length + 1) :=
  ⟨rfl, archive_shape wFs wParse "flat.xml" "out.docx" wParts rfl⟩

theorem attrIs_overrideElem_partName (a b u : String) :
    attrIs (overrideElem a b) "PartName" u = (a == u) := rfl

theorem attrIs_overrideElem_contentType (a b w : String) :
    attrIs (overrideElem a b) "ContentType" w = (b == w) := rfl

/-- C5: for every part, the manifest tree generated after registering all
parts contains an `Override` element whose `PartName` is the part's uri; each
registered uri appears exactly once as a `PartName`, and such an element's
`ContentType` is the content type of the LAST part registered under that uri
(last-registered wins); the serialized `[Content_Types].xml` is exactly this
tree's rendering. -/
theorem manifest_override_fidelity (parts : List PackagePart) (u : String)
    (hu : u ∈ parts.map PackagePart.uri) :
    ∃ (t : Xml) (ctv : String),
      typesTree (assembleLoop parts ⟨[], []⟩ []).1 = .ok t ∧
      write_xml_data (assembleLoop parts ⟨[], []⟩ []).1 = .ok (tostring t) ∧
      lastRegistered parts u = some ctv ∧
      t.children.countP (fun e => attrIs e "PartName" u) = 1 ∧
      ∀ e ∈ t.children, attrIs e "PartName" u = true →
        e.tag = clark ctNamespace "Override" ∧ attrIs e "ContentType" ctv = true := by
  have hd : (assembleLoop parts ⟨[], []⟩ []).1.defaults = [] := by
    rw [assembleLoop_registry]
  have hover : (assembleLoop parts ⟨[], []⟩ []).1.overrides =
      parts.foldl (fun o p => dictSet o p.uri p.content_type) [] := by
    rw [assembleLoop_registry]
  obtain ⟨ctv, hctv⟩ := lastRegistered_of_mem parts u hu
  have hnodup : (((assembleLoop parts ⟨[], []⟩ []).1.overrides).map Prod.fst).Nodup := by
    rw [hover]
    exact foldl_dictSet_keys_nodup parts [] (by simp)
  have hget : dictGet (assembleLoop parts ⟨[], []⟩ []).1.overrides u = some ctv := by
    rw [hover, foldl_dictSet_get, hctv]
    rfl
  have hmem : u ∈ ((assembleLoop parts ⟨[], []⟩ []).1.overrides).map Prod.fst :=
    dictGet_mem_keys _ u ctv hget
  refine ⟨_, ctv, typesTree_defaults_nil _ hd, write_xml_data_defaults_nil _ hd, hctv, ?_, ?_⟩
  · show (((assembleLoop parts ⟨[], []⟩ []).1.overrides).map
        (fun kv => overrideElem kv.1 kv.2)).countP (fun e => attrIs e "PartName" u) = 1
    rw [List.countP_map]
    have h1 : ((assembleLoop parts ⟨[], []⟩ []).1.overrides).countP
        ((fun e => attrIs e "PartName" u) ∘ (fun kv : String × String => overrideElem kv.1 kv.2)) =
        (((assembleLoop parts ⟨[], []⟩ []).1.overrides).map Prod.fst).count u := by
      rw [List.count, List.countP_map]
      rfl
    rw [h1]
    exact List.count_eq_one_of_mem hnodup hmem
  · intro e he hattr
    simp only [Xml.children] at he
    obtain ⟨kv, hkv, rfl⟩ := List.mem_map.mp he
    have hk : kv.1 = u := by
      have hb : (kv.1 == u) = true := hattr
      simpa using hb
    refine ⟨rfl, ?_⟩
    have hmem2 : (kv.1, kv.2) ∈ (assembleLoop parts ⟨[], []⟩ []).1.overrides := by
      simpa using hkv
    have hg2 : dictGet (assembleLoop parts ⟨[], []⟩ []).1.overrides kv.1 = some kv.2 :=
      dictGet_of_mem_nodup _ hnodup kv.1 kv.2 hmem2
    rw [hk, hget] at hg2
    have hv : kv.2 = ctv := (Option.some.inj hg2).symm
    rw [attrIs_overrideElem_contentType, hv]
    simp

/-- Witness for C5 at a concrete parts list that registers the same uri
twice. -/
theorem manifest_override_fidelity_witness :
    "/word/document.xml" ∈ dupParts.map PackagePart.uri ∧
    (∃ (t : Xml) (ctv : String),
      typesTree (assembleLoop dupParts ⟨[], []⟩ []).1 = .ok t ∧
      write_xml_data (assembleLoop dupParts ⟨[], []⟩ []).1 = .ok (tostring t) ∧
      lastRegistered dupParts "/word/document.xml" = some ctv ∧
      t.children.countP (fun e => attrIs e "PartName" "/word/document.xml") = 1 ∧
      ∀ e ∈ t.children, attrIs e "PartName" "/word/document.xml" = true →
        e.tag = clark ctNamespace "Override" ∧ attrIs e "ContentType" ctv = true) :=
  ⟨by decide, manifest_override_fidelity dupParts "/word/document.xml" (by decide)⟩
